import Mathlib

/-
Verification of the tool-augmented conversation loop of the llm-agent
repository (pkg/agent/agent.go, second variant, the one with storage and a
workspace root; pkg/tools/list_dir.go; pkg/models/ollama.go;
pkg/storage SaveMessage).

Modelling conventions:
* Go strings are modelled as `List Char` (sequences of unicode scalar
  values).  All strings the program manipulates at its decision points are
  ASCII, where byte indices and rune indices coincide; `strings.Index`
  results and slice offsets are therefore modelled as positions in the
  `List Char`.
* `encoding/json` behaviour (json.Unmarshal into the two tool-call structs
  and into ListDirInput) is embedded as an executable recursive-descent
  parser following the JSON grammar that package accepts: optional JSON
  whitespace (space, tab, CR, LF) around tokens, the whole input must be a
  single value, `null` into a struct or a string field is a no-op,
  a wrong-typed field makes the whole Unmarshal fail, unknown keys are
  ignored, later duplicate keys overwrite, keys match struct tags exactly
  or case-insensitively, and a `json.RawMessage` field receives the raw
  text of the value.  Unicode `\u` escapes that denote surrogates are
  mapped to U+FFFD without pair combination (Go combines valid pairs; no
  theorem below depends on surrogate inputs).
* External effects (the model backend, the tool executions, the chat
  storage file, the directory tree) are oracles supplied as parameters;
  machine integers are `Int` (no claim exercises 64-bit overflow).
* `uuid.New()` is modelled as drawing from an injective fresh-value
  supply: a counter stored in the agent state.  Wall-clock values
  (timestamps, response times) are omitted: no claim mentions them.
-/

/-! ## Go string primitives -/

/-- Character class of Go `unicode.IsSpace` (the White_Space property),
used by `strings.TrimSpace` and `strings.Fields`. -/
def isGoSpace (c : Char) : Bool :=
  c == '\t' || c == '\n' || c == '\x0b' || c == '\x0c' || c == '\r' || c == ' '
  || c == '\x85' || c == '\xa0'
  || c.toNat == 0x1680 || (0x2000 ≤ c.toNat && c.toNat ≤ 0x200a)
  || c.toNat == 0x2028 || c.toNat == 0x2029 || c.toNat == 0x202f
  || c.toNat == 0x205f || c.toNat == 0x3000

/-- Go `strings.TrimSpace`. -/
def goTrimSpace (s : List Char) : List Char :=
  ((s.dropWhile isGoSpace).reverse.dropWhile isGoSpace).reverse

/-- Go `strings.HasPrefix`. -/
def goStartsWith (s pre : List Char) : Bool :=
  pre.isPrefixOf s

/-- Go `strings.Index`: position of the first occurrence of `sub` in `s`,
`none` when absent (Go returns -1). -/
def goIndex : List Char → List Char → Option Nat
  | s, sub =>
    if sub.isPrefixOf s then some 0
    else
      match s with
      | [] => none
      | _ :: t => (goIndex t sub).map (fun n => n + 1)

/-- Go `strings.Contains`. -/
def goContains (s sub : List Char) : Bool :=
  (goIndex s sub).isSome

/-- Go string slicing `s[lo:hi]` (caller must ensure `lo ≤ hi ≤ len`;
the Go panic on an invalid range is handled at the call site). -/
def goSlice (s : List Char) (lo hi : Nat) : List Char :=
  (s.drop lo).take (hi - lo)

/-- Go `strings.TrimPrefix`. -/
def goTrimStart (s pre : List Char) : List Char :=
  if goStartsWith s pre then s.drop pre.length else s

/-- Go `strings.TrimSuffix`. -/
def goTrimEnd (s suf : List Char) : List Char :=
  if suf.isSuffixOf s then s.take (s.length - suf.length) else s

/-- Counting helper for `strings.Fields`: `inField` records whether the
previous character belonged to a field. -/
def countFieldsAux : List Char → Bool → Nat
  | [], _ => 0
  | c :: t, inField =>
    if isGoSpace c then countFieldsAux t false
    else (if inField then 0 else 1) + countFieldsAux t true

/-- Go `len(strings.Fields(s))`: number of maximal runs of
non-whitespace characters. -/
def countFields (s : List Char) : Nat :=
  countFieldsAux s false

/-! ## encoding/json, as consumed by the agent -/

/-- JSON values; object members additionally carry the raw text of the
member's value, which Go hands to `json.RawMessage` fields. -/
inductive JVal where
  | null : JVal
  | boolVal : Bool → JVal
  | numVal : List Char → JVal
  | strVal : List Char → JVal
  | arrVal : List JVal → JVal
  | objVal : List (List Char × JVal × List Char) → JVal

/-- JSON token whitespace accepted by the Go scanner. -/
def isJsonWs (c : Char) : Bool :=
  c == ' ' || c == '\t' || c == '\n' || c == '\r'

def skipWs (s : List Char) : List Char :=
  s.dropWhile isJsonWs

def hexVal (c : Char) : Option Nat :=
  let n := c.toNat
  if 48 ≤ n ∧ n ≤ 57 then some (n - 48)
  else if 97 ≤ n ∧ n ≤ 102 then some (n - 87)
  else if 65 ≤ n ∧ n ≤ 70 then some (n - 55)
  else none

def escChar : Char → Option Char
  | '"' => some '"'
  | '\\' => some '\\'
  | '/' => some '/'
  | 'b' => some '\x08'
  | 'f' => some '\x0c'
  | 'n' => some '\n'
  | 'r' => some '\r'
  | 't' => some '\t'
  | _ => none

/-- Body of a JSON string literal, after the opening quote; returns the
decoded content and the rest of the input after the closing quote. -/
def parseStringBody : List Char → Option (List Char × List Char)
  | [] => none
  | '"' :: rest => some ([], rest)
  | '\\' :: 'u' :: h1 :: h2 :: h3 :: h4 :: rest =>
    match hexVal h1, hexVal h2, hexVal h3, hexVal h4 with
    | some a, some b, some c, some d =>
      let n := ((a * 16 + b) * 16 + c) * 16 + d
      let ch := if 0xd800 ≤ n ∧ n ≤ 0xdfff then Char.ofNat 0xfffd else Char.ofNat n
      (parseStringBody rest).map (fun r => (ch :: r.1, r.2))
    | _, _, _, _ => none
  | '\\' :: e :: rest =>
    match escChar e with
    | some c => (parseStringBody rest).map (fun r => (c :: r.1, r.2))
    | none => none
  | c :: rest =>
    if c.toNat < 32 then none
    else (parseStringBody rest).map (fun r => (c :: r.1, r.2))

def parseIntPart : List Char → Option (List Char × List Char)
  | [] => none
  | '0' :: t => some (['0'], t)
  | c :: t =>
    if c.isDigit then some (c :: t.takeWhile Char.isDigit, t.dropWhile Char.isDigit)
    else none

def parseFracPart : List Char → Option (List Char × List Char)
  | '.' :: t =>
    let ds := t.takeWhile Char.isDigit
    if ds = [] then none else some ('.' :: ds, t.dropWhile Char.isDigit)
  | s => some ([], s)

def parseExpPart : List Char → Option (List Char × List Char)
  | [] => some ([], [])
  | c :: t =>
    if c == 'e' || c == 'E' then
      let sgnRest : List Char × List Char :=
        match t with
        | '+' :: u => (['+'], u)
        | '-' :: u => (['-'], u)
        | _ => ([], t)
      let ds := sgnRest.2.takeWhile Char.isDigit
      if ds = [] then none
      else some (c :: sgnRest.1 ++ ds, sgnRest.2.dropWhile Char.isDigit)
    else some ([], c :: t)

/-- JSON number (caller guarantees the input starts with `-` or a digit). -/
def parseNumber (s : List Char) : Option (List Char × List Char) :=
  let npRest : List Char × List Char :=
    match s with
    | '-' :: t => (['-'], t)
    | _ => ([], s)
  match parseIntPart npRest.2 with
  | none => none
  | some (ip, s2) =>
    match parseFracPart s2 with
    | none => none
    | some (fp, s3) =>
      match parseExpPart s3 with
      | none => none
      | some (ep, s4) => some (npRest.1 ++ ip ++ fp ++ ep, s4)

mutual

/-- JSON value parser (fuel-indexed recursive descent). -/
def parseValue : Nat → List Char → Option (JVal × List Char)
  | 0, _ => none
  | fuel + 1, s =>
    match skipWs s with
    | [] => none
    | c :: t =>
      if c = '\x7b' then
        match skipWs t with
        | '\x7d' :: r => some (.objVal [], r)
        | _ => (parseMembers fuel t).map (fun r => (JVal.objVal r.1, r.2))
      else if c = '[' then
        match skipWs t with
        | ']' :: r => some (.arrVal [], r)
        | _ => (parseElems fuel t).map (fun r => (JVal.arrVal r.1, r.2))
      else if c = '"' then
        (parseStringBody t).map (fun r => (JVal.strVal r.1, r.2))
      else if c = 't' then
        match t with
        | 'r' :: 'u' :: 'e' :: r => some (.boolVal true, r)
        | _ => none
      else if c = 'f' then
        match t with
        | 'a' :: 'l' :: 's' :: 'e' :: r => some (.boolVal false, r)
        | _ => none
      else if c = 'n' then
        match t with
        | 'u' :: 'l' :: 'l' :: r => some (.null, r)
        | _ => none
      else if c = '-' then (parseNumber (c :: t)).map (fun r => (JVal.numVal r.1, r.2))
      else if c.isDigit then (parseNumber (c :: t)).map (fun r => (JVal.numVal r.1, r.2))
      else none

/-- Object members, after the opening brace of a non-empty object. -/
def parseMembers : Nat → List Char → Option (List (List Char × JVal × List Char) × List Char)
  | 0, _ => none
  | fuel + 1, s =>
    match skipWs s with
    | '"' :: t =>
      match parseStringBody t with
      | none => none
      | some (key, r1) =>
        match skipWs r1 with
        | ':' :: r2 =>
          let r3 := skipWs r2
          match parseValue fuel r3 with
          | none => none
          | some (v, r4) =>
            let raw := r3.take (r3.length - r4.length)
            match skipWs r4 with
            | ',' :: r5 =>
              match parseMembers fuel r5 with
              | none => none
              | some (ms, r6) => some ((key, v, raw) :: ms, r6)
            | '\x7d' :: r5 => some ([(key, v, raw)], r5)
            | _ => none
        | _ => none
    | _ => none

/-- Array elements, after the opening bracket of a non-empty array. -/
def parseElems : Nat → List Char → Option (List JVal × List Char)
  | 0, _ => none
  | fuel + 1, s =>
    match parseValue fuel s with
    | none => none
    | some (v, r1) =>
      match skipWs r1 with
      | ',' :: r2 => (parseElems fuel r2).map (fun r => (v :: r.1, r.2))
      | ']' :: r2 => some ([v], r2)
      | _ => none

end

/-- Top-level JSON parse as validated by `json.Unmarshal`: one value,
possibly surrounded by JSON whitespace, consuming the whole input. -/
def jsonParseTop (s : List Char) : Option JVal :=
  match parseValue (2 * s.length + 2) s with
  | some (v, rest) => if skipWs rest = [] then some v else none
  | none => none

def asciiLower (c : Char) : Char :=
  if 'A' ≤ c ∧ c ≤ 'Z' then Char.ofNat (c.toNat + 32) else c

/-- Struct-field key matching of encoding/json: exact tag match or
case-insensitive match (Go folds with `EqualFold`; the tags involved are
plain ASCII, where ASCII folding coincides with it). -/
def keyMatch (k field : List Char) : Bool :=
  k == field || k.map asciiLower == field.map asciiLower

/-- Member fold for `struct { Name string; Arguments json.RawMessage }`
(tags "name", "arguments"): later members overwrite, `null` into the
string field is a no-op, a wrong-typed `name` fails the whole Unmarshal,
`arguments` receives the raw value text, unknown keys are ignored. -/
def assignNameArgs : List (List Char × JVal × List Char) → (List Char × List Char) →
    Option (List Char × List Char)
  | [], acc => some acc
  | (k, v, raw) :: rest, acc =>
    if keyMatch k ("name".toList) then
      match v with
      | JVal.strVal sv => assignNameArgs rest (sv, acc.2)
      | JVal.null => assignNameArgs rest acc
      | _ => none
    else if keyMatch k ("arguments".toList) then
      assignNameArgs rest (acc.1, raw)
    else assignNameArgs rest acc

/-- `json.Unmarshal(data, &struct{Name string; Arguments json.RawMessage})`
followed by reading `(Name, string(Arguments))`: `some` iff Unmarshal
returned no error.  A top-level `null` is a no-op leaving zero values. -/
def goUnmarshalToolCall (s : List Char) : Option (List Char × List Char) :=
  match jsonParseTop s with
  | some JVal.null => some ([], [])
  | some (JVal.objVal ms) => assignNameArgs ms ([], [])
  | _ => none

/-- Member fold for the outer struct of the Ollama format:
`struct { Function struct{Name string; Arguments json.RawMessage} }`
(tag "function"); repeated `function` members merge field-wise. -/
def assignFunctionMembers : List (List Char × JVal × List Char) → (List Char × List Char) →
    Option (List Char × List Char)
  | [], acc => some acc
  | (k, v, _) :: rest, acc =>
    if keyMatch k ("function".toList) then
      match v with
      | JVal.objVal ms =>
        match assignNameArgs ms acc with
        | none => none
        | some acc' => assignFunctionMembers rest acc'
      | JVal.null => assignFunctionMembers rest acc
      | _ => none
    else assignFunctionMembers rest acc

/-- `json.Unmarshal` into the nested Ollama tool-call struct followed by
reading `(Function.Name, string(Function.Arguments))`. -/
def goUnmarshalFunctionCall (s : List Char) : Option (List Char × List Char) :=
  match jsonParseTop s with
  | some JVal.null => some ([], [])
  | some (JVal.objVal ms) => assignFunctionMembers ms ([], [])
  | _ => none

/-! ## Response Interpreter (agent.go, Run, lines 312-366) -/

def toolOpenMark : List Char := "<tool>".toList
def toolCloseMark : List Char := "</tool>".toList
def toolLineMark : List Char := "[Tool:".toList
def toolCallsMark : List Char := "tool_calls".toList
def inputLineMark : List Char := "Input:".toList

/-- Outer trigger condition
`strings.Contains(fullResponse, "<tool>") || strings.Contains(fullResponse, "[Tool:") || strings.Contains(fullResponse, "tool_calls")`. -/
def gateB (full : List Char) : Bool :=
  goContains full toolOpenMark || goContains full toolLineMark || goContains full toolCallsMark

/-- XML branch (first detector): locate `<tool>`/`</tool>` and unmarshal
the enclosed text.  Result `none` models the Go slice panic
`fullResponse[toolStart+6 : toolEnd]` when `toolStart+6 > toolEnd`;
otherwise the `(toolName, toolInput)` pair after this branch
(both empty when the branch did not fire or the JSON failed to parse). -/
def xmlPhase (full : List Char) : Option (List Char × List Char) :=
  match goIndex full toolOpenMark with
  | none => some ([], [])
  | some toolStart =>
    match goIndex full toolCloseMark with
    | none => some ([], [])
    | some toolEnd =>
      if toolStart + 6 ≤ toolEnd then
        match goUnmarshalToolCall (goSlice full (toolStart + 6) toolEnd) with
        | some r => some r
        | none => some ([], [])
      else none

/-- Ollama branch (second detector): guarded by `toolName == ""` and
`strings.TrimSpace(fullResponse)[0] == '{'`.  Result `none` models the Go
index panic when the trimmed response is empty. -/
def ollamaPhase (full : List Char) (acc : List Char × List Char) :
    Option (List Char × List Char) :=
  if acc.1 = [] then
    match goTrimSpace full with
    | [] => none
    | c :: _ =>
      if c = '\x7b' then
        match goUnmarshalFunctionCall full with
        | some r => some r
        | none => some acc
      else some acc
  else some acc

/-- Claude branch scan: first line with the `[Tool:` marker sets the name
(and, when the immediately following line starts with `Input:`, the
input), then breaks. -/
def claudeScan : List (List Char) → (List Char × List Char) → (List Char × List Char)
  | [], acc => acc
  | line :: rest, acc =>
    if goStartsWith line toolLineMark then
      let nm := goTrimSpace (goTrimStart (goTrimEnd line [']']) toolLineMark)
      let inp :=
        match rest with
        | next :: _ =>
          if goStartsWith next inputLineMark then goTrimSpace (goTrimStart next inputLineMark)
          else acc.2
        | [] => acc.2
      (nm, inp)
    else claudeScan rest acc

/-- Claude branch (third detector), guarded by `toolName == ""`. -/
def claudePhase (full : List Char) (acc : List Char × List Char) : List Char × List Char :=
  if acc.1 = [] then claudeScan (full.splitOn '\n') acc else acc

/-- Outcome of the detection block: either one of the two possible Go
panics, or the final `(toolName, toolInput)` pair (`toolName = ""` means
no tool call was detected). -/
inductive Detection where
  | slicePanic : Detection
  | trimPanic : Detection
  | done : List Char → List Char → Detection
deriving DecidableEq

/-- The whole detection block of Agent.Run (lines 312-366): the three
detectors in priority order behind the substring gate. -/
def runDetection (full : List Char) : Detection :=
  if gateB full then
    match xmlPhase full with
    | none => .slicePanic
    | some acc1 =>
      match ollamaPhase full acc1 with
      | none => .trimPanic
      | some acc2 =>
        let acc3 := claudePhase full acc2
        .done acc3.1 acc3.2
  else .done [] []

/-! ## Turn Coordinator (agent.go, Run, lines 263-463) -/

/-- models.Message. -/
structure Message where
  role : List Char
  content : List Char
deriving DecidableEq

/-- Persisted record written by storage.SaveMessage (storage.ChatMessage);
the per-record uuid and the timestamp are opaque external values no claim
mentions and are omitted. -/
structure Record where
  conversationID : Nat
  role : List Char
  content : List Char
  model : List Char
  inputTokens : Int
  outputTokens : Int
deriving DecidableEq

/-- Coordinator-owned state across loop iterations: the transcript, the
History Sink contents, the session statistics, and the fresh-identifier
supply modelling uuid.New(). -/
structure AgentState where
  messages : List Message
  records : List Record
  totalInputTokens : Int
  totalOutputTokens : Int
  nextConvID : Nat
deriving DecidableEq

/-- A registered tool as the loop sees it: its name and its (external,
side-effecting) execution function. -/
structure ToolImpl where
  name : List Char
  execute : List Char → Except (List Char) (List Char)

/-- Oracle for the external collaborators consulted during one loop
iteration: the two possible model stream outcomes and whether each
storage append succeeds (a failed save only prints a warning). -/
structure TurnEnv where
  firstResponse : Except (List Char) (List Char)
  secondResponse : Except (List Char) (List Char)
  saveUserOk : Bool
  saveAssistantOk : Bool

/-- Result of one iteration of the `for` loop in Run. -/
inductive StepOutcome where
  | shutdown : StepOutcome
  | fatalError : List Char → AgentState → StepOutcome
  | panicked : StepOutcome
  | next : AgentState → StepOutcome
deriving DecidableEq

def userRole : List Char := "user".toList
def assistantRole : List Char := "assistant".toList

/-- `int64(float64(len(strings.Fields(s))) * 1.3)` (agent.go lines
434-435).  The float64 multiplication by the literal 1.3 and the int64
truncation are modelled as exact rational scaling by 13/10 with floor;
the estimate is a function of the text alone either way. -/
def agentTokenEstimate (s : List Char) : Int :=
  Int.ofNat (countFields s * 13 / 10)

/-- estimateTokens of pkg/models/ollama.go: sum over the messages of
`len(msg.Content) / 4`. -/
def estimateTokens (msgs : List Message) : Int :=
  msgs.foldl (fun total m => total + Int.ofNat (m.content.length / 4)) 0

def findTool (ts : List ToolImpl) (nm : List Char) : Option ToolImpl :=
  ts.find? (fun t => t.name == nm)

def wrapResult (r : List Char) : List Char :=
  "<result>".toList ++ r ++ "</result>".toList

/-- Tool dispatch and the follow-up model call (lines 368-427).
`.error` carries the message Run returns with and the state at that
moment; `.ok` carries the final accumulated `fullResponse` and the state.
When no registered tool matches (or no call was detected) nothing
executes and nothing changes. -/
def runToolPhase (tools : List ToolImpl) (env : TurnEnv) (st : AgentState)
    (resp0 nm inp : List Char) :
    Except (List Char × AgentState) (List Char × AgentState) :=
  if nm = [] then .ok (resp0, st)
  else
    match findTool tools nm with
    | none => .ok (resp0, st)
    | some tool =>
      match tool.execute inp with
      | .error e =>
        .error ("error executing tool ".toList ++ nm ++ ": ".toList ++ e, st)
      | .ok result =>
        let st' := { st with
          messages := st.messages ++
            [⟨assistantRole, resp0⟩, ⟨userRole, wrapResult result⟩] }
        match env.secondResponse with
        | .error e =>
          .error ("error getting model response to tool result: ".toList ++ e, st')
        | .ok resp1 => .ok (resp0 ++ resp1, st')

/-- Statistics update (lines 430-445), performed only with `-stats`. -/
def statsPhase (showStats : Bool) (input full : List Char) (st : AgentState) : AgentState :=
  if showStats then
    { st with
      totalInputTokens := st.totalInputTokens + agentTokenEstimate input,
      totalOutputTokens := st.totalOutputTokens + agentTokenEstimate full }
  else st

/-- storage.SaveMessage as the loop uses it: append one record when the
write succeeds, warn and continue otherwise. -/
def saveRecord (ok : Bool) (r : Record) (st : AgentState) : AgentState :=
  if ok then { st with records := st.records ++ [r] } else st

/-- Tail of a successful iteration (lines 430-459): statistics update,
appending the final assistant message, and persisting it under the
exchange's conversation identifier. -/
def finishTurn (showStats : Bool) (modelName : List Char) (saveAssistantOk : Bool)
    (conversationID : Nat) (input full : List Char) (st : AgentState) : AgentState :=
  let st4 := statsPhase showStats input full st
  let st5 : AgentState := { st4 with messages := st4.messages ++ [⟨assistantRole, full⟩] }
  saveRecord saveAssistantOk
    ⟨conversationID, assistantRole, full, modelName, 0, Int.ofNat (countFields full)⟩ st5

/-- Everything after the first stream arrived: detection, dispatch, and
the completion of the turn. -/
def dispatchPhase (tools : List ToolImpl) (showStats : Bool) (modelName : List Char)
    (env : TurnEnv) (conversationID : Nat) (input : List Char) (st : AgentState)
    (resp0 : List Char) : StepOutcome :=
  match runDetection resp0 with
  | .slicePanic => .panicked
  | .trimPanic => .panicked
  | .done nm inp =>
    match runToolPhase tools env st resp0 nm inp with
    | .error (msg, st3) => .fatalError msg st3
    | .ok (full, st3) =>
      .next (finishTurn showStats modelName env.saveAssistantOk conversationID input full st3)

/-- One full iteration of the conversation loop of Agent.Run (lines
263-463).  `none` input models `getUserInput` reporting end of stream
(Run returns nil); `.fatalError` models Run returning an error, which
main surfaces and then the process exits. -/
def stepTurn (tools : List ToolImpl) (showStats : Bool) (modelName : List Char)
    (env : TurnEnv) (st : AgentState) : Option (List Char) → StepOutcome
  | none => .shutdown
  | some input =>
    if input = [] then .next st
    else
      let conversationID := st.nextConvID
      let st1 : AgentState := { st with
        nextConvID := st.nextConvID + 1,
        messages := st.messages ++ [⟨userRole, input⟩] }
      let st2 := saveRecord env.saveUserOk
        ⟨conversationID, userRole, input, modelName, Int.ofNat (countFields input), 0⟩ st1
      match env.firstResponse with
      | .error e => .fatalError ("error getting model response: ".toList ++ e) st2
      | .ok resp0 => dispatchPhase tools showStats modelName env conversationID input st2 resp0

/-- State carried by an outcome that has one (completed turn or aborted
turn); used to speak uniformly about what was committed. -/
def outState : StepOutcome → Option AgentState
  | .next st => some st
  | .fatalError _ st => some st
  | _ => none

/-- Whether an outcome continues the conversation loop. -/
def isNext : StepOutcome → Bool
  | .next _ => true
  | _ => false

/-! ## ListDirTool (pkg/tools/list_dir.go) -/

/-- Element processing of Go `path/filepath.Clean` (unix): empty and `.`
elements vanish; `..` pops a poppable element, is dropped at the root of
a rooted path, and accumulates otherwise.  `out` is kept reversed. -/
def cleanLoop (rooted : Bool) : List (List Char) → List (List Char) → List (List Char)
  | out, [] => out
  | out, q :: rest =>
    if q = [] ∨ q = ['.'] then cleanLoop rooted out rest
    else if q = ['.', '.'] then
      match out with
      | top :: out' =>
        if top = ['.', '.'] then cleanLoop rooted (['.', '.'] :: out) rest
        else cleanLoop rooted out' rest
      | [] =>
        if rooted then cleanLoop rooted [] rest
        else cleanLoop rooted [['.', '.']] rest
    else cleanLoop rooted (q :: out) rest

def joinSlash : List (List Char) → List Char
  | [] => []
  | [q] => q
  | q :: rest => q ++ '/' :: joinSlash rest

/-- Go `filepath.Clean` on unix. -/
def pathClean (p : List Char) : List Char :=
  if p = [] then ['.']
  else
    let rooted : Bool :=
      match p with
      | '/' :: _ => true
      | _ => false
    let out := (cleanLoop rooted [] (p.splitOn '/')).reverse
    if rooted then '/' :: joinSlash out
    else if out = [] then ['.'] else joinSlash out

/-- Go `filepath.Join(a, b)`: non-empty elements joined with a slash,
then cleaned; all-empty input yields the empty string. -/
def filepathJoin (a b : List Char) : List Char :=
  if a = [] ∧ b = [] then []
  else if a = [] then pathClean b
  else if b = [] then pathClean a
  else pathClean (a ++ '/' :: b)

/-- Member fold for `ListDirInput` (`struct { Path string }`, tag
"path"). -/
def assignListDirInput : List (List Char × JVal × List Char) → List Char → Option (List Char)
  | [], acc => some acc
  | (k, v, _) :: rest, acc =>
    if keyMatch k ("path".toList) then
      match v with
      | JVal.strVal sv => assignListDirInput rest sv
      | JVal.null => assignListDirInput rest acc
      | _ => none
    else assignListDirInput rest acc

/-- `json.Unmarshal(input, &ListDirInput)` followed by reading `.Path`. -/
def goUnmarshalListDirInput (s : List Char) : Option (List Char) :=
  match jsonParseTop s with
  | some JVal.null => some []
  | some (JVal.objVal ms) => assignListDirInput ms []
  | _ => none

/-- One entry of a directory as os.ReadDir reports it (entries whose
Info call fails are skipped by the tool; the oracle lists only the
surviving ones). -/
structure FSEntry where
  entryName : List Char
  isDir : Bool
  size : Int
deriving DecidableEq

/-- External filesystem oracle: `stat` gives `none` on error, otherwise
whether the path is a directory; `readDir` gives `none` on error. -/
structure FileSystem where
  stat : List Char → Option Bool
  readDir : List Char → Option (List FSEntry)

/-- Decimal rendering of an Int (`fmt.Sprintf("%d", n)`). -/
def intToChars (n : Int) : List Char :=
  if n < 0 then '-' :: (Nat.toDigits 10 n.natAbs)
  else Nat.toDigits 10 n.natAbs

/-- The `div, exp` loop of formatSize; Go int64 division truncates
toward zero (`Int.tdiv`).  Fuel 64 covers every int64. -/
def formatSizeLoop : Nat → Int → Nat → Int → Int × Nat
  | 0, div, exp, _ => (div, exp)
  | fuel + 1, div, exp, n =>
    if 1024 ≤ n then formatSizeLoop fuel (div * 1024) (exp + 1) (n.tdiv 1024)
    else (div, exp)

/-- `fmt.Sprintf("%.1f", x)` for `x = size/div`, modelled as exact
rational rounding (round half to even) to one decimal; the float64
idealization is irrelevant to every claim (no theorem exercises the
≥ 1024 branch). -/
def oneDecimal (size div : Int) : List Char :=
  let q := size * 10
  let k := q.tdiv div
  let r := q.tmod div
  let k := if 2 * r.natAbs > div.natAbs then (if q < 0 then k - 1 else k + 1)
           else if 2 * r.natAbs = div.natAbs ∧ k.tmod 2 ≠ 0 then (if q < 0 then k - 1 else k + 1)
           else k
  intToChars (k.tdiv 10) ++ '.' :: intToChars (k.tmod 10).natAbs

/-- formatSize of list_dir.go. -/
def formatSize (size : Int) : List Char :=
  if size < 1024 then intToChars size ++ " B".toList
  else
    let de := formatSizeLoop 64 1024 0 (size.tdiv 1024)
    oneDecimal size de.1 ++ ' ' :: ("KMGTPE".toList.getD de.2 'K') :: ['B']

/-- One formatted directory entry:
`fmt.Sprintf("%s %s\t%s\n", prefix, entry.Name(), size)`. -/
def formatEntry (e : FSEntry) : List Char :=
  (if e.isDir then "📁".toList else "📄".toList) ++ ' ' :: e.entryName
    ++ '\t' :: (if e.isDir then "<dir>".toList else formatSize e.size) ++ ['\n']

/-- The listing text built by ListDirTool.Execute on success. -/
def formatListing (reqPath : List Char) (entries : List FSEntry) : List Char :=
  "Contents of ".toList ++ reqPath ++ ":\n\n".toList
    ++ entries.foldr (fun e acc => formatEntry e ++ acc) []

/-- ListDirTool.Execute (list_dir.go lines 46-101): parse the payload,
join with the workspace root, require the root as a string prefix of the
joined path, stat, require a directory, read it and format. -/
def listDirExecute (workspaceRoot : List Char) (fs : FileSystem) (input : List Char) :
    Except (List Char) (List Char) :=
  match goUnmarshalListDirInput input with
  | none => .error ("failed to parse input".toList)
  | some reqPath =>
    let absPath := filepathJoin workspaceRoot reqPath
    if ¬ goStartsWith absPath workspaceRoot = true then
      .error ("path must be within workspace root".toList)
    else
      match fs.stat absPath with
      | none => .error ("failed to access directory".toList)
      | some isDir =>
        if ¬ isDir = true then .error ("path is not a directory".toList)
        else
          match fs.readDir absPath with
          | none => .error ("failed to read directory".toList)
          | some entries => .ok (formatListing reqPath entries)

/-- Whether `p` lies inside the directory tree rooted at `root`
(the property the tool's guard is meant to enforce). -/
def pathWithin (root p : List Char) : Bool :=
  p == root || goStartsWith p (root ++ ['/'])

/-! ## Helper lemmas and claim theorems -/

theorem goIndex_isSome_occurs (sub : List Char) :
    ∀ s : List Char, (goIndex s sub).isSome = true → sub <:+: s := by
  intro s
  induction s with
  | nil =>
    intro h
    unfold goIndex at h
    by_cases hp : sub.isPrefixOf ([] : List Char) = true
    · exact ((List.isPrefixOf_iff_prefix).mp hp).isInfix
    · simp [hp] at h
  | cons a t ih =>
    intro h
    unfold goIndex at h
    by_cases hp : sub.isPrefixOf (a :: t) = true
    · exact ((List.isPrefixOf_iff_prefix).mp hp).isInfix
    · simp only [hp, if_neg, Bool.false_eq_true, ite_false] at h
      have := ih (by
        cases hgi : goIndex t sub with
        | none => rw [hgi] at h; simp at h
        | some v => simp [hgi])
      exact List.infix_cons this

theorem goContains_occurs (s sub : List Char) (h : goContains s sub = true) : sub <:+: s :=
  goIndex_isSome_occurs sub s h

theorem mem_dropWhile_of_mem (p : Char → Bool) (c : Char) (hc : p c = false) :
    ∀ s : List Char, c ∈ s → c ∈ s.dropWhile p := by
  intro s
  induction s with
  | nil => intro h; exact absurd h (List.not_mem_nil c)
  | cons a t ih =>
    intro h
    by_cases hpa : p a = true
    · rw [List.dropWhile_cons_of_pos hpa]
      rcases List.mem_cons.mp h with rfl | hmem
      · rw [hpa] at hc; exact absurd hc (by simp)
      · exact ih hmem
    · rw [List.dropWhile_cons_of_neg hpa]
      exact h

theorem goTrimSpace_ne_nil (s : List Char) (c : Char) (hc : c ∈ s)
    (hns : isGoSpace c = false) : goTrimSpace s ≠ [] := by
  intro h
  unfold goTrimSpace at h
  rw [List.reverse_eq_nil_iff, List.dropWhile_eq_nil_iff] at h
  have h1 : c ∈ s.dropWhile isGoSpace := mem_dropWhile_of_mem _ _ hns s hc
  have h2 : c ∈ (s.dropWhile isGoSpace).reverse := List.mem_reverse.mpr h1
  have := h c h2
  rw [hns] at this
  exact absurd this (by simp)

theorem gate_trim_ne_nil (s : List Char) (h : gateB s = true) : goTrimSpace s ≠ [] := by
  unfold gateB at h
  rcases Bool.or_eq_true_iff.mp h with h' | h3
  · rcases Bool.or_eq_true_iff.mp h' with h1 | h2
    · exact goTrimSpace_ne_nil s '<' ((goContains_occurs _ _ h1).subset (by decide)) (by decide)
    · exact goTrimSpace_ne_nil s '[' ((goContains_occurs _ _ h2).subset (by decide)) (by decide)
  · exact goTrimSpace_ne_nil s 't' ((goContains_occurs _ _ h3).subset (by decide)) (by decide)

theorem ollamaPhase_ne_none (s : List Char) (acc : List Char × List Char)
    (h : gateB s = true) : ollamaPhase s acc ≠ none := by
  unfold ollamaPhase
  by_cases ha : acc.1 = []
  · simp only [ha, if_pos]
    cases htr : goTrimSpace s with
    | nil => exact absurd htr (gate_trim_ne_nil s h)
    | cons c t =>
      by_cases hc : c = '\x7b'
      · simp only [hc, if_pos]
        cases goUnmarshalFunctionCall s <;> simp
      · simp [hc]
  · simp [ha]

/-- C9: the unguarded index expression `strings.TrimSpace(fullResponse)[0]`
in the whole-reply format check never panics: that code is reachable only
under the outer substring gate, and each trigger substring contains a
non-whitespace character, so the trimmed reply is non-empty there. -/
theorem C9_trim_index_never_panics (full : List Char) :
    runDetection full ≠ Detection.trimPanic := by
  unfold runDetection
  by_cases hg : gateB full = true
  · rw [if_pos hg]
    cases hx : xmlPhase full with
    | none => simp
    | some acc1 =>
      cases ho : ollamaPhase full acc1 with
      | none => exact absurd ho (ollamaPhase_ne_none full acc1 hg)
      | some acc2 => simp [ho]
  · rw [if_neg hg]
    simp
def c2reply : List Char :=
  "\x7b\"function\":\x7b\"name\":\"list_dir\",\"arguments\":\x7b\x7d\x7d\x7d".toList

/-- C2 counterexample: a reply that, after trimming, begins with the
structured-object opening character, parses as a JSON object whose
`function` sub-object carries `name` and `arguments`, and contains no
delimited tool block — yet the interpreter detects nothing, because the
whole-reply branch sits behind the substring gate of line 313 and this
reply contains none of the trigger substrings. -/
theorem C2_counterexample :
    (goTrimSpace c2reply).head? = some '\x7b'
    ∧ goUnmarshalFunctionCall c2reply = some ("list_dir".toList, "\x7b\x7d".toList)
    ∧ goContains c2reply toolOpenMark = false
    ∧ goContains c2reply toolCloseMark = false
    ∧ runDetection c2reply = Detection.done [] [] :=
  ⟨rfl, rfl, rfl, rfl, rfl⟩

/-- C2 amended: under the additional hypothesis that the reply contains
one of the trigger substrings of the detection gate (and that the
delimited-block markers are not both present, and the extracted name is
non-empty, which the code requires to treat detection as successful),
the whole-reply structured format is detected with exactly that name and
those arguments. -/
theorem C2_whole_reply_structured (reply n a : List Char)
    (hgate : gateB reply = true)
    (hnoblock : ¬ (goContains reply toolOpenMark = true ∧ goContains reply toolCloseMark = true))
    (hbrace : (goTrimSpace reply).head? = some '\x7b')
    (hparse : goUnmarshalFunctionCall reply = some (n, a))
    (hname : n ≠ []) :
    runDetection reply = Detection.done n a := by
  have hxml : xmlPhase reply = some ([], []) := by
    unfold xmlPhase
    cases hio : goIndex reply toolOpenMark with
    | none => rfl
    | some i =>
      have hcon : goContains reply toolOpenMark = true := by
        unfold goContains; rw [hio]; rfl
      have hnc : goIndex reply toolCloseMark = none := by
        cases h2 : goIndex reply toolCloseMark with
        | none => rfl
        | some j =>
          exact absurd ⟨hcon, by unfold goContains; rw [h2]; rfl⟩ hnoblock
      rw [hnc]
  have holl : ollamaPhase reply ([], []) = some (n, a) := by
    unfold ollamaPhase
    simp only [if_pos]
    cases htr : goTrimSpace reply with
    | nil => rw [htr] at hbrace; exact absurd hbrace (by simp)
    | cons c t =>
      rw [htr] at hbrace
      have hc : c = '\x7b' := by
        have := Option.some.inj hbrace
        simpa using this
      subst hc
      simp [hparse]
  unfold runDetection
  rw [if_pos hgate]
  simp only [hxml, holl]
  unfold claudePhase
  rw [if_neg hname]

def c2breply : List Char :=
  "\x7b\"function\":\x7b\"name\":\"tool_calls\",\"arguments\":\x7b\x7d\x7d\x7d".toList

/-- Witness for the amended C2 at a concrete reply (the tool name
`tool_calls` makes the reply contain a trigger substring). -/
theorem C2_whole_reply_structured_witness :
    gateB c2breply = true
    ∧ runDetection c2breply = Detection.done ("tool_calls".toList) ("\x7b\x7d".toList) :=
  ⟨rfl, C2_whole_reply_structured c2breply ("tool_calls".toList) ("\x7b\x7d".toList)
    rfl (by decide) rfl rfl (by decide)⟩

/-- Shared fact: when the reply holds a well-formed delimited block
(both markers located, a valid slice, enclosed JSON giving a non-empty
name), detection resolves to that block's result; the lower-priority
detectors are bypassed. -/
theorem detection_of_delimited_block (reply : List Char) (i j : Nat) (n a : List Char)
    (hio : goIndex reply toolOpenMark = some i)
    (hic : goIndex reply toolCloseMark = some j)
    (hle : i + 6 ≤ j)
    (hparse : goUnmarshalToolCall (goSlice reply (i + 6) j) = some (n, a))
    (hname : n ≠ []) :
    runDetection reply = Detection.done n a := by
  have hgate : gateB reply = true := by
    have : goContains reply toolOpenMark = true := by
      unfold goContains; rw [hio]; rfl
    unfold gateB
    rw [this]
    rfl
  have hxml : xmlPhase reply = some (n, a) := by
    unfold xmlPhase
    rw [hio, hic]
    simp only [if_pos hle, hparse]
  have holl : ollamaPhase reply (n, a) = some (n, a) := by
    unfold ollamaPhase
    rw [if_neg hname]
  unfold runDetection
  rw [if_pos hgate]
  simp only [hxml, holl]
  unfold claudePhase
  rw [if_neg hname]

/-- C4: a reply containing both a well-formed delimited `<tool>` block
and a line-prefixed `[Tool: ...]` marker resolves via the delimited
block only: the detected name and arguments are the block's, whatever
the line-prefixed lines would have supplied. -/
theorem C4_delimited_block_priority (reply : List Char) (i j : Nat) (n a : List Char)
    (hio : goIndex reply toolOpenMark = some i)
    (hic : goIndex reply toolCloseMark = some j)
    (hle : i + 6 ≤ j)
    (hparse : goUnmarshalToolCall (goSlice reply (i + 6) j) = some (n, a))
    (hname : n ≠ [])
    (hmarker : (reply.splitOn '\n').any (fun l => goStartsWith l toolLineMark) = true) :
    runDetection reply = Detection.done n a :=
  detection_of_delimited_block reply i j n a hio hic hle hparse hname

def c4reply : List Char :=
  ("<tool>\x7b\"name\":\"list_dir\",\"arguments\":\x7b\"path\":\".\"\x7d\x7d</tool>"
    ++ "\n[Tool: read_file]\nInput: \x7b\x7d").toList

/-- Witness for C4: the concrete reply carries a delimited block naming
`list_dir` and a line-prefixed marker naming `read_file`; detection
yields the block's pair. -/
theorem C4_delimited_block_priority_witness :
    (c4reply.splitOn '\n').any (fun l => goStartsWith l toolLineMark) = true
    ∧ runDetection c4reply =
        Detection.done ("list_dir".toList) ("\x7b\"path\":\".\"\x7d".toList) :=
  ⟨rfl, C4_delimited_block_priority c4reply 0 50 ("list_dir".toList)
    ("\x7b\"path\":\".\"\x7d".toList) rfl rfl (by decide) rfl (by decide) rfl⟩

theorem statsPhase_messages (b : Bool) (input full : List Char) (st : AgentState) :
    (statsPhase b input full st).messages = st.messages := by
  unfold statsPhase; split <;> rfl

theorem statsPhase_records (b : Bool) (input full : List Char) (st : AgentState) :
    (statsPhase b input full st).records = st.records := by
  unfold statsPhase; split <;> rfl

theorem statsPhase_nextConvID (b : Bool) (input full : List Char) (st : AgentState) :
    (statsPhase b input full st).nextConvID = st.nextConvID := by
  unfold statsPhase; split <;> rfl

theorem saveRecord_messages (b : Bool) (r : Record) (st : AgentState) :
    (saveRecord b r st).messages = st.messages := by
  unfold saveRecord; split <;> rfl

theorem saveRecord_records (b : Bool) (r : Record) (st : AgentState) :
    (saveRecord b r st).records = st.records ++ (if b then [r] else []) := by
  unfold saveRecord; split
  · rfl
  · simp

theorem saveRecord_nextConvID (b : Bool) (r : Record) (st : AgentState) :
    (saveRecord b r st).nextConvID = st.nextConvID := by
  unfold saveRecord; split <;> rfl

/-- State carried by either outcome of the tool phase. -/
def exceptState : Except (List Char × AgentState) (List Char × AgentState) → AgentState
  | .error (_, s) => s
  | .ok (_, s) => s

theorem runToolPhase_records_convID (tools : List ToolImpl) (env : TurnEnv)
    (st : AgentState) (resp0 nm inp : List Char) :
    (exceptState (runToolPhase tools env st resp0 nm inp)).records = st.records
    ∧ (exceptState (runToolPhase tools env st resp0 nm inp)).nextConvID = st.nextConvID := by
  unfold runToolPhase
  split
  · exact ⟨rfl, rfl⟩
  · cases findTool tools nm with
    | none => exact ⟨rfl, rfl⟩
    | some tool =>
      dsimp only
      cases tool.execute inp with
      | error e => exact ⟨rfl, rfl⟩
      | ok result =>
        dsimp only
        cases env.secondResponse with
        | error e => exact ⟨rfl, rfl⟩
        | ok resp1 => exact ⟨rfl, rfl⟩

/-- C7: on the exact empty user input the iteration is a no-op: no
transcript mutation, no persisted record, no statistics update, and the
loop is back at awaiting input with the same state. -/
theorem C7_empty_input_is_noop (tools : List ToolImpl) (showStats : Bool)
    (modelName : List Char) (env : TurnEnv) (st : AgentState) :
    stepTurn tools showStats modelName env st (some []) = .next st := rfl

/-- C8: both token estimators are pure functions of the text alone — the
embedding takes no clock or hidden state — so evaluating either twice on
identical inputs yields identical counts. -/
theorem C8_estimation_deterministic (s t : List Char) (ms ms' : List Message)
    (h1 : s = t) (h2 : ms = ms') :
    agentTokenEstimate s = agentTokenEstimate t
    ∧ estimateTokens ms = estimateTokens ms' := by
  subst h1; subst h2; exact ⟨rfl, rfl⟩

/-- Witness for C8 at concrete inputs. -/
theorem C8_estimation_deterministic_witness :
    agentTokenEstimate ("list files in .".toList) = agentTokenEstimate ("list files in .".toList)
    ∧ estimateTokens [⟨assistantRole, "abcdefgh".toList⟩]
        = estimateTokens [⟨assistantRole, "abcdefgh".toList⟩] :=
  C8_estimation_deterministic _ _ _ _ rfl rfl

theorem finishTurn_messages (b : Bool) (mn : List Char) (sa : Bool) (cid : Nat)
    (input full : List Char) (st : AgentState) :
    (finishTurn b mn sa cid input full st).messages
      = st.messages ++ [⟨assistantRole, full⟩] := by
  unfold finishTurn
  rw [saveRecord_messages]
  dsimp only
  rw [statsPhase_messages]

theorem finishTurn_nextConvID (b : Bool) (mn : List Char) (sa : Bool) (cid : Nat)
    (input full : List Char) (st : AgentState) :
    (finishTurn b mn sa cid input full st).nextConvID = st.nextConvID := by
  unfold finishTurn
  rw [saveRecord_nextConvID]
  dsimp only
  rw [statsPhase_nextConvID]

theorem finishTurn_records (b : Bool) (mn : List Char) (sa : Bool) (cid : Nat)
    (input full : List Char) (st : AgentState) :
    (finishTurn b mn sa cid input full st).records
      = st.records ++ (if sa then
          [⟨cid, assistantRole, full, mn, 0, Int.ofNat (countFields full)⟩] else []) := by
  unfold finishTurn
  rw [saveRecord_records]
  dsimp only
  rw [statsPhase_records]

/-- C3: a detected call naming a capability absent from the registry
executes nothing and raises nothing: the iteration completes normally
(`.next`, not an error or a panic) and the raw reply is kept as plain
assistant content after the user message. -/
theorem C3_unknown_tool_is_inert (tools : List ToolImpl) (showStats : Bool)
    (modelName : List Char) (env : TurnEnv) (st : AgentState)
    (input resp0 nm inp : List Char)
    (hin : input ≠ [])
    (hresp : env.firstResponse = .ok resp0)
    (hdet : runDetection resp0 = .done nm inp)
    (hfind : findTool tools nm = none) :
    ∃ st', stepTurn tools showStats modelName env st (some input) = .next st'
      ∧ st'.messages = st.messages ++ [⟨userRole, input⟩, ⟨assistantRole, resp0⟩] := by
  have hrt : ∀ s : AgentState, runToolPhase tools env s resp0 nm inp = .ok (resp0, s) := by
    intro s
    unfold runToolPhase
    by_cases hnm : nm = []
    · rw [if_pos hnm]
    · rw [if_neg hnm, hfind]
  refine ⟨finishTurn showStats modelName env.saveAssistantOk st.nextConvID input resp0
      (saveRecord env.saveUserOk
        ⟨st.nextConvID, userRole, input, modelName, Int.ofNat (countFields input), 0⟩
        { st with nextConvID := st.nextConvID + 1,
                  messages := st.messages ++ [⟨userRole, input⟩] }), ?_, ?_⟩
  · simp only [stepTurn, if_neg hin, hresp, dispatchPhase, hdet, hrt]
  · rw [finishTurn_messages, saveRecord_messages]
    simp

def emptyAgentState : AgentState := ⟨[], [], 0, 0, 0⟩

def c3reply : List Char :=
  "<tool>\x7b\"name\":\"no_such_tool\",\"arguments\":\x7b\x7d\x7d</tool>".toList

def c3env : TurnEnv := ⟨.ok c3reply, .ok [], true, true⟩

/-- Witness for C3: an empty registry and a reply requesting
`no_such_tool`. -/
theorem C3_unknown_tool_is_inert_witness :
    runDetection c3reply = Detection.done ("no_such_tool".toList) ("\x7b\x7d".toList)
    ∧ ∃ st', stepTurn [] false [] c3env emptyAgentState (some ("hi".toList)) = .next st'
        ∧ st'.messages = emptyAgentState.messages ++
            [⟨userRole, "hi".toList⟩, ⟨assistantRole, c3reply⟩] :=
  ⟨rfl, C3_unknown_tool_is_inert [] false [] c3env emptyAgentState ("hi".toList) c3reply
    ("no_such_tool".toList) ("\x7b\x7d".toList) (by decide) rfl rfl rfl⟩

/-- C5: when the first reply carries a well-formed delimited-block call
naming a registered tool, the tool succeeds, and the follow-up stream
succeeds, exactly four messages are appended in order: the user input,
the raw reply, the wrapped tool result as a user-role message, and the
final assistant content (the accumulated `fullResponse`, i.e. the raw
reply extended by the follow-up reply). -/
theorem C5_tool_roundtrip_appends_four (tools : List ToolImpl) (showStats : Bool)
    (modelName : List Char) (env : TurnEnv) (st : AgentState)
    (input resp0 nm inp result resp1 : List Char) (i j : Nat) (tool : ToolImpl)
    (hin : input ≠ [])
    (hresp : env.firstResponse = .ok resp0)
    (hio : goIndex resp0 toolOpenMark = some i)
    (hic : goIndex resp0 toolCloseMark = some j)
    (hle : i + 6 ≤ j)
    (hparse : goUnmarshalToolCall (goSlice resp0 (i + 6) j) = some (nm, inp))
    (hname : nm ≠ [])
    (hfind : findTool tools nm = some tool)
    (hexec : tool.execute inp = .ok result)
    (hsecond : env.secondResponse = .ok resp1) :
    ∃ st', stepTurn tools showStats modelName env st (some input) = .next st'
      ∧ st'.messages = st.messages ++
          [⟨userRole, input⟩, ⟨assistantRole, resp0⟩,
           ⟨userRole, wrapResult result⟩, ⟨assistantRole, resp0 ++ resp1⟩] := by
  have hdet := detection_of_delimited_block resp0 i j nm inp hio hic hle hparse hname
  have hrt : ∀ s : AgentState, runToolPhase tools env s resp0 nm inp =
      .ok (resp0 ++ resp1, { s with messages := s.messages ++
        [⟨assistantRole, resp0⟩, ⟨userRole, wrapResult result⟩] }) := by
    intro s
    unfold runToolPhase
    rw [if_neg hname, hfind]
    dsimp only
    rw [hexec]
    dsimp only
    rw [hsecond]
  have hstep : stepTurn tools showStats modelName env st (some input)
      = .next (finishTurn showStats modelName env.saveAssistantOk st.nextConvID input
          (resp0 ++ resp1)
          { saveRecord env.saveUserOk
              ⟨st.nextConvID, userRole, input, modelName, Int.ofNat (countFields input), 0⟩
              { st with nextConvID := st.nextConvID + 1,
                        messages := st.messages ++ [⟨userRole, input⟩] } with
            messages := (saveRecord env.saveUserOk
              ⟨st.nextConvID, userRole, input, modelName, Int.ofNat (countFields input), 0⟩
              { st with nextConvID := st.nextConvID + 1,
                        messages := st.messages ++ [⟨userRole, input⟩] }).messages
              ++ [⟨assistantRole, resp0⟩, ⟨userRole, wrapResult result⟩] }) := by
    simp only [stepTurn, if_neg hin, hresp, dispatchPhase, hdet, hrt]
  refine ⟨_, hstep, ?_⟩
  rw [finishTurn_messages]
  dsimp only
  rw [saveRecord_messages]
  simp

def c5reply : List Char :=
  "<tool>\x7b\"name\":\"list_dir\",\"arguments\":\x7b\"path\":\".\"\x7d\x7d</tool>".toList

def c5tool : ToolImpl := ⟨"list_dir".toList, fun _ => .ok ("ok".toList)⟩

def c5env : TurnEnv := ⟨.ok c5reply, .ok (" done".toList), true, true⟩

/-- Witness for C5: scenario A with a stub `list_dir` execution. -/
theorem C5_tool_roundtrip_appends_four_witness :
    findTool [c5tool] ("list_dir".toList) = some c5tool
    ∧ ∃ st', stepTurn [c5tool] false [] c5env emptyAgentState
          (some ("list files in .".toList)) = .next st'
        ∧ st'.messages = emptyAgentState.messages ++
            [⟨userRole, "list files in .".toList⟩, ⟨assistantRole, c5reply⟩,
             ⟨userRole, wrapResult ("ok".toList)⟩,
             ⟨assistantRole, c5reply ++ " done".toList⟩] :=
  ⟨rfl, C5_tool_roundtrip_appends_four [c5tool] false [] c5env emptyAgentState
    ("list files in .".toList) c5reply ("list_dir".toList) ("\x7b\"path\":\".\"\x7d".toList)
    ("ok".toList) (" done".toList) 0 50 c5tool
    (by decide) rfl rfl rfl (by decide) rfl (by decide) rfl rfl rfl⟩

/-- C1 amended: a transport error from the first stream, or an execution
error from a matched tool, makes Run return an error: the outcome is the
fatal path (main prints the error and the process exits), not a return
to awaiting input.  The transcript at the moment of abort retains
exactly what had been committed before the failing call. -/
theorem C1_turn_errors_terminate_session (tools : List ToolImpl) (showStats : Bool)
    (modelName : List Char) (env : TurnEnv) (st : AgentState) (input : List Char)
    (hin : input ≠ []) :
    (∀ e, env.firstResponse = .error e →
      ∃ st', stepTurn tools showStats modelName env st (some input)
          = .fatalError ("error getting model response: ".toList ++ e) st'
        ∧ st'.messages = st.messages ++ [⟨userRole, input⟩])
    ∧ (∀ resp0 nm inp tool e, env.firstResponse = .ok resp0 →
        runDetection resp0 = .done nm inp → nm ≠ [] →
        findTool tools nm = some tool → tool.execute inp = .error e →
        ∃ st', stepTurn tools showStats modelName env st (some input)
            = .fatalError ("error executing tool ".toList ++ nm ++ ": ".toList ++ e) st'
          ∧ st'.messages = st.messages ++ [⟨userRole, input⟩]) := by
  constructor
  · intro e he
    have hstep : stepTurn tools showStats modelName env st (some input)
        = .fatalError ("error getting model response: ".toList ++ e)
            (saveRecord env.saveUserOk
              ⟨st.nextConvID, userRole, input, modelName, Int.ofNat (countFields input), 0⟩
              { st with nextConvID := st.nextConvID + 1,
                        messages := st.messages ++ [⟨userRole, input⟩] }) := by
      simp only [stepTurn, if_neg hin, he]
    exact ⟨_, hstep, by rw [saveRecord_messages]⟩
  · intro resp0 nm inp tool e hresp hdet hname hfind hexec
    have hrt : ∀ s : AgentState, runToolPhase tools env s resp0 nm inp =
        .error ("error executing tool ".toList ++ nm ++ ": ".toList ++ e, s) := by
      intro s
      unfold runToolPhase
      rw [if_neg hname, hfind]
      dsimp only
      rw [hexec]
    have hstep : stepTurn tools showStats modelName env st (some input)
        = .fatalError ("error executing tool ".toList ++ nm ++ ": ".toList ++ e)
            (saveRecord env.saveUserOk
              ⟨st.nextConvID, userRole, input, modelName, Int.ofNat (countFields input), 0⟩
              { st with nextConvID := st.nextConvID + 1,
                        messages := st.messages ++ [⟨userRole, input⟩] }) := by
      simp only [stepTurn, if_neg hin, hresp, dispatchPhase, hdet, hrt]
    exact ⟨_, hstep, by rw [saveRecord_messages]⟩

def c1env : TurnEnv := ⟨.error ("connection refused".toList), .ok [], true, true⟩

/-- C1 counterexample: with a transport error from the model backend the
iteration does not continue the loop (the outcome is not `.next`): Run
returns the error, so the conversation does not return to awaiting
input and the session terminates. -/
theorem C1_counterexample :
    isNext (stepTurn [] false [] c1env emptyAgentState (some ("hi".toList))) = false
    ∧ stepTurn [] false [] c1env emptyAgentState (some ("hi".toList))
        = .fatalError ("error getting model response: connection refused".toList)
            ⟨[⟨userRole, "hi".toList⟩],
             [⟨0, userRole, "hi".toList, [], 1, 0⟩], 0, 0, 1⟩ :=
  ⟨rfl, rfl⟩

/-- Witness for the amended C1 at the same concrete input. -/
theorem C1_turn_errors_terminate_session_witness :
    c1env.firstResponse = .error ("connection refused".toList)
    ∧ ∃ st', stepTurn [] false [] c1env emptyAgentState (some ("hi".toList))
        = .fatalError ("error getting model response: ".toList ++ "connection refused".toList) st'
      ∧ st'.messages = emptyAgentState.messages ++ [⟨userRole, "hi".toList⟩] :=
  ⟨rfl, (C1_turn_errors_terminate_session [] false [] c1env emptyAgentState
    ("hi".toList) (by decide)).1 ("connection refused".toList) rfl⟩

/-- State bookkeeping of the post-stream phase: whatever its outcome, the
identifier supply is untouched and every record it appends carries the
conversation identifier it was given. -/
theorem dispatchPhase_state (tools : List ToolImpl) (showStats : Bool) (modelName : List Char)
    (env : TurnEnv) (cid : Nat) (input : List Char) (st : AgentState) (resp0 : List Char)
    (st' : AgentState)
    (h : outState (dispatchPhase tools showStats modelName env cid input st resp0) = some st') :
    st'.nextConvID = st.nextConvID
    ∧ ∃ new, st'.records = st.records ++ new ∧ ∀ r ∈ new, r.conversationID = cid := by
  unfold dispatchPhase at h
  cases hd : runDetection resp0 with
  | slicePanic =>
    rw [hd] at h
    dsimp only [outState] at h
    exact absurd h (by simp)
  | trimPanic =>
    rw [hd] at h
    dsimp only [outState] at h
    exact absurd h (by simp)
  | done nm inp =>
    rw [hd] at h
    dsimp only at h
    have hinv := runToolPhase_records_convID tools env st resp0 nm inp
    cases hrt : runToolPhase tools env st resp0 nm inp with
    | error p =>
      obtain ⟨msg, st3⟩ := p
      rw [hrt] at h hinv
      dsimp only [outState, exceptState] at h hinv
      have : st3 = st' := Option.some.inj h
      subst this
      exact ⟨hinv.2, [], by rw [hinv.1]; simp, by simp⟩
    | ok p =>
      obtain ⟨full, st3⟩ := p
      rw [hrt] at h hinv
      dsimp only [outState, exceptState] at h hinv
      have hst : finishTurn showStats modelName env.saveAssistantOk cid input full st3 = st' :=
        Option.some.inj h
      subst hst
      refine ⟨?_, ?_⟩
      · rw [finishTurn_nextConvID, hinv.2]
      · refine ⟨(if env.saveAssistantOk then
            [⟨cid, assistantRole, full, modelName, 0, Int.ofNat (countFields full)⟩] else []),
            ?_, ?_⟩
        · rw [finishTurn_records, hinv.1]
        · intro r hr
          by_cases hb : env.saveAssistantOk = true
          · rw [if_pos hb] at hr
            rcases List.mem_singleton.mp hr with rfl
            rfl
          · rw [if_neg hb] at hr
            exact absurd hr (List.not_mem_nil r)

/-- C6: for every completed or aborted non-empty exchange, exactly one
fresh conversation identifier is minted (the supply advances by exactly
one), it differs from every earlier exchange's identifier, and every
record persisted during the exchange — the user message's and any
assistant message's — carries that identifier. -/
theorem C6_conversation_identifier (tools : List ToolImpl) (showStats : Bool)
    (modelName : List Char) (env : TurnEnv) (st st' : AgentState) (input : List Char)
    (hin : input ≠ [])
    (hout : outState (stepTurn tools showStats modelName env st (some input)) = some st') :
    st'.nextConvID = st.nextConvID + 1
    ∧ st'.nextConvID ≠ st.nextConvID
    ∧ ∃ new, st'.records = st.records ++ new
        ∧ ∀ r ∈ new, r.conversationID = st.nextConvID := by
  simp only [stepTurn, if_neg hin] at hout
  cases hfr : env.firstResponse with
  | error e =>
    rw [hfr] at hout
    dsimp only [outState] at hout
    have hst : saveRecord env.saveUserOk
        ⟨st.nextConvID, userRole, input, modelName, Int.ofNat (countFields input), 0⟩
        { st with nextConvID := st.nextConvID + 1,
                  messages := st.messages ++ [⟨userRole, input⟩] } = st' :=
      Option.some.inj hout
    subst hst
    refine ⟨by rw [saveRecord_nextConvID], by rw [saveRecord_nextConvID]; exact Nat.succ_ne_self _, ?_⟩
    refine ⟨(if env.saveUserOk then
        [⟨st.nextConvID, userRole, input, modelName, Int.ofNat (countFields input), 0⟩]
      else []), by rw [saveRecord_records], ?_⟩
    intro r hr
    by_cases hb : env.saveUserOk = true
    · rw [if_pos hb] at hr
      rcases List.mem_singleton.mp hr with rfl
      rfl
    · rw [if_neg hb] at hr
      exact absurd hr (List.not_mem_nil r)
  | ok resp0 =>
    rw [hfr] at hout
    dsimp only at hout
    have hd := dispatchPhase_state tools showStats modelName env st.nextConvID input _ resp0 st' hout
    obtain ⟨h1, new2, h2, h3⟩ := hd
    rw [saveRecord_nextConvID] at h1
    rw [saveRecord_records] at h2
    refine ⟨h1, by rw [h1]; exact Nat.succ_ne_self _, ?_⟩
    refine ⟨(if env.saveUserOk then
        [⟨st.nextConvID, userRole, input, modelName, Int.ofNat (countFields input), 0⟩]
      else []) ++ new2, by rw [h2]; simp, ?_⟩
    intro r hr
    rcases List.mem_append.mp hr with hr' | hr'
    · by_cases hb : env.saveUserOk = true
      · rw [if_pos hb] at hr'
        rcases List.mem_singleton.mp hr' with rfl
        rfl
      · rw [if_neg hb] at hr'
        exact absurd hr' (List.not_mem_nil r)
    · exact h3 r hr'

def c6env : TurnEnv := ⟨.ok ("hello there".toList), .ok [], true, true⟩

/-- Witness for C6: a plain conversational exchange from a fresh state. -/
theorem C6_conversation_identifier_witness :
    outState (stepTurn [] false [] c6env emptyAgentState (some ("hi".toList)))
      = some ⟨[⟨userRole, "hi".toList⟩, ⟨assistantRole, "hello there".toList⟩],
              [⟨0, userRole, "hi".toList, [], 1, 0⟩,
               ⟨0, assistantRole, "hello there".toList, [], 0, 2⟩], 0, 0, 1⟩
    ∧ ((1 : Nat) = 0 + 1 ∧ (1 : Nat) ≠ 0
        ∧ ∃ new, ([⟨0, userRole, "hi".toList, [], 1, 0⟩,
                   ⟨0, assistantRole, "hello there".toList, [], 0, 2⟩] : List Record)
              = emptyAgentState.records ++ new
            ∧ ∀ r ∈ new, r.conversationID = 0) :=
  ⟨rfl, C6_conversation_identifier [] false [] c6env emptyAgentState
    ⟨[⟨userRole, "hi".toList⟩, ⟨assistantRole, "hello there".toList⟩],
     [⟨0, userRole, "hi".toList, [], 1, 0⟩,
      ⟨0, assistantRole, "hello there".toList, [], 0, 2⟩], 0, 0, 1⟩
    ("hi".toList) (by decide) rfl⟩

def c10fs : FileSystem :=
  ⟨fun p => if p = "/ws2".toList then some true else none,
   fun p => if p = "/ws2".toList then some [⟨"notes".toList, false, 100⟩] else none⟩

/-- C10: the guard `strings.HasPrefix(filepath.Join(root, path), root)` is
a plain string-prefix test, not a directory-containment test.  With
workspace root `/ws` and requested path `../ws2` the joined, cleaned path
is `/ws2`: it escapes the workspace root, yet the guard passes and the
tool lists the sibling directory successfully — contradicting the
confinement the code's own error message (`path must be within workspace
root`) documents. -/
theorem C10_escape_eval :
    filepathJoin ("/ws".toList) ("../ws2".toList) = "/ws2".toList
    ∧ goStartsWith ("/ws2".toList) ("/ws".toList) = true
    ∧ pathWithin ("/ws".toList) ("/ws2".toList) = false
    ∧ listDirExecute ("/ws".toList) c10fs ("\x7b\"path\": \"../ws2\"\x7d".toList)
        = .ok (formatListing ("../ws2".toList) [⟨"notes".toList, false, 100⟩]) :=
  ⟨rfl, rfl, rfl, rfl⟩
